import Mathlib

/-!
Verification development for the mean-reversion trading bot core.

The definitions below are a shallow embedding of the strategy tick
(`runMeanReversionLogic` in src/strategy/meanReversion.ts, EMA revision),
its helper functions (`calculateEMA`, `calculateStdDev`), the session
reset (`resetMeanReversionState`) and the scheduler
(`startTradingLoop` / `stopTradingLoop` / `isLoopRunning` in
src/strategy/core.ts).  JavaScript numbers are modelled as real numbers;
fallible external fetches (account state, oracle price, market account,
fee fetch) are modelled as `Option` inputs to the tick, and the outcome
of the two execution calls (`placeMarketOrder`, `closePosition`) as
boolean inputs (`true` = the call succeeded, `false` = it threw).
-/

namespace TradingBot

open Classical

noncomputable section

/-- Lookback period for EMA and StdDev calculations and minimum data for trading. -/
def CALCULATION_PERIOD : ℕ := 21

/-- Maximum number of prices to store in the queue. -/
def MAX_QUEUE_LENGTH : ℕ := 90

/-- Enter if Z-score exceeds this (positive or negative). -/
def Z_SCORE_ENTRY_THRESHOLD : ℝ := 2.2

/-- Exit (TP) if Z-score comes back within this range of 0. -/
def Z_SCORE_EXIT_THRESHOLD : ℝ := 0.3

/-- Trade size as a fraction of buying power. -/
def PORTFOLIO_RISK_PER_TRADE : ℝ := 0.05

/-- Max fraction of total collateral to be in positions. -/
def MAX_PORTFOLIO_ALLOCATION : ℝ := 0.4

/-- Minimum profit target as a fraction of initial position value (Z-score exit). -/
def MINIMUM_PROFIT_PERCENTAGE : ℝ := 0.01

/-- Maximum loss fraction of initial position value before stop-loss. -/
def MAX_LOSS_PERCENTAGE : ℝ := 0.05

/-- Take profit if unrealized PnL reaches this fraction of initial value. -/
def TAKE_PROFIT_PERCENTAGE : ℝ := 0.05

/-- The leverage multiplier. -/
def LEVERAGE_FACTOR : ℝ := 5

/-- The module-level mutable strategy state of meanReversion.ts. -/
structure BotState where
  priceQueue : List ℝ
  takerFeePercentState : Option ℝ
  currentEntryPrice : Option ℝ
  lastEMA : Option ℝ

/-- The slice of the account snapshot the tick consumes. -/
structure AccountState where
  totalCollateral : ℝ

/-- The zero-or-one trading action a tick issues, tagged with the branch
that issued it. -/
inductive Action where
  | none : Action
  | exitStopLoss : Action
  | exitTakeProfitPct : Action
  | exitZScore : Action
  | enterLong : ℝ → Action
  | enterShort : ℝ → Action

/-- Step 3 of the tick: push the current price and trim the queue to
MAX_QUEUE_LENGTH, evicting the oldest sample. -/
def updatedQueue (q : List ℝ) (price : ℝ) : List ℝ :=
  let q1 := q ++ [price]
  if MAX_QUEUE_LENGTH < q1.length then q1.tail else q1

/-- calculateEMA from meanReversion.ts: EMA of the current price with
smoothing factor 2/(period+1); seeded with the SMA of the last period
samples when no previous EMA exists; null when the queue is shorter than
the period. -/
def calculateEMA (currentPrice : ℝ) (period : ℕ) (previousEMA : Option ℝ)
    (priceData : List ℝ) : Option ℝ :=
  if priceData.length < period then none
  else
    let smoothingFactor : ℝ := 2 / ((period : ℝ) + 1)
    let relevantPriceData := priceData.drop (priceData.length - period)
    match previousEMA with
    | some e => some (currentPrice * smoothingFactor + e * (1 - smoothingFactor))
    | none =>
      let initialSMA := relevantPriceData.sum / (period : ℝ)
      some (currentPrice * smoothingFactor + initialSMA * (1 - smoothingFactor))

/-- calculateStdDev from meanReversion.ts: population standard deviation of
the last period samples around the given EMA; null if the EMA is null or
the data is shorter than the period. -/
def calculateStdDev (data : List ℝ) (ema : Option ℝ) (period : ℕ) : Option ℝ :=
  match ema with
  | none => none
  | some m =>
    if data.length < period then none
    else
      some (Real.sqrt (((data.drop (data.length - period)).map
        (fun v => (v - m) ^ 2)).sum / (period : ℝ)))

/-- Step 4 of the tick: the (EMA, StdDev, zScore) triple computed from the
updated queue, the stored previous EMA and the current price.  The zScore
is defined only when the StdDev is strictly positive. -/
def indicators (lastEMA : Option ℝ) (queue : List ℝ) (currentPrice : ℝ) :
    Option ℝ × Option ℝ × Option ℝ :=
  let currentEMA := calculateEMA currentPrice CALCULATION_PERIOD lastEMA queue
  let currentStdDev := calculateStdDev queue currentEMA CALCULATION_PERIOD
  let zScore : Option ℝ :=
    match currentEMA, currentStdDev with
    | some m, some sd => if 0 < sd then some ((currentPrice - m) / sd) else none
    | _, _ => none
  (currentEMA, currentStdDev, zScore)

/-- The estimated PnL computed by the tick: long formula for a positive
position, the position size times (entry minus current) otherwise. -/
def estimatedPnl (positionSizeBase currentPrice currentEntryPrice : ℝ) : ℝ :=
  if 0 < positionSizeBase then
    positionSizeBase * (currentPrice - currentEntryPrice)
  else
    positionSizeBase * (currentEntryPrice - currentPrice)

/-- Buying power: total collateral times the leverage factor. -/
def buyingPower (totalCollateral : ℝ) : ℝ :=
  totalCollateral * LEVERAGE_FACTOR

/-- Desired trade value in quote: buying power times the per-trade risk. -/
def desiredTradeValueQuote (totalCollateral : ℝ) : ℝ :=
  buyingPower totalCollateral * PORTFOLIO_RISK_PER_TRADE

/-- Desired trade size in base units. -/
def desiredTradeSizeBase (totalCollateral currentPrice : ℝ) : ℝ :=
  desiredTradeValueQuote totalCollateral / currentPrice

/-- The desired size truncated to two decimal places, as in
Math.floor(x * 100) / 100. -/
def roundedDesiredTradeSizeBase (totalCollateral currentPrice : ℝ) : ℝ :=
  (⌊desiredTradeSizeBase totalCollateral currentPrice * 100⌋ : ℝ) / 100

/-- The actual trade size: the floored desired size bounded below by the
market's minimum order step. -/
def actualTradeSizeBase (totalCollateral currentPrice minOrderSizeNumber : ℝ) : ℝ :=
  max (roundedDesiredTradeSizeBase totalCollateral currentPrice) minOrderSizeNumber

/-- The fee state after the once-per-session fetch: kept if already stored;
fetched (and scaled to a percentage) when a valid zScore exists and the
fetch succeeds; otherwise still null. -/
def feeAfterFetch (feeState zScore feeFetch : Option ℝ) : Option ℝ :=
  match feeState with
  | some f => some f
  | none =>
    match zScore with
    | some _ => feeFetch.map (fun f => f * 100)
    | none => none

/-- Effect of a closePosition attempt on the strategy state: clears the
entry price on success, leaves the state unchanged when the call throws. -/
def exitAttempt (closeOk : Bool) (s : BotState) : BotState :=
  if closeOk then { s with currentEntryPrice := none } else s

/-- Effect of a placeMarketOrder attempt on the strategy state: records the
current price as entry price on success, clears it when the call throws. -/
def entryAttempt (placeOk : Bool) (currentPrice : ℝ) (s : BotState) : BotState :=
  if placeOk then { s with currentEntryPrice := some currentPrice }
  else { s with currentEntryPrice := none }

/-- One tick of runMeanReversionLogic.  Inputs beyond the stored state:
the fetched account snapshot, the fetched oracle price, the fetched
position size, the market's minimum order step (none when the perp market
account fetch fails), the result of a fee fetch (none when it throws),
and the outcomes of a close/place execution call.  Returns the new stored
state and the action taken. -/
def runMeanReversionLogic (s : BotState) (accountState : Option AccountState)
    (oraclePrice : Option ℝ) (positionSizeBase : ℝ) (minOrderSize : Option ℝ)
    (feeFetch : Option ℝ) (closeOk placeOk : Bool) : BotState × Action :=
  match accountState with
  | none => (s, Action.none)
  | some acct =>
    if acct.totalCollateral ≤ 0 then (s, Action.none)
    else
      match oraclePrice with
      | none => (s, Action.none)
      | some currentPrice =>
        let priceQueue := updatedQueue s.priceQueue currentPrice
        let ind := indicators s.lastEMA priceQueue currentPrice
        let currentEMA := ind.1
        let zScore := ind.2.2
        let currentCapitalUsage := |positionSizeBase| * currentPrice
        let maxAllowedCapital := acct.totalCollateral * MAX_PORTFOLIO_ALLOCATION
        match minOrderSize with
        | none => ({ s with priceQueue := priceQueue, lastEMA := currentEMA }, Action.none)
        | some minOrderSizeNumber =>
          let takerFeePercent := feeAfterFetch s.takerFeePercentState zScore feeFetch
          let estimatedRoundTripFeeCostQuote :=
            match takerFeePercent with
            | some fp => desiredTradeValueQuote acct.totalCollateral * (fp / 100) * 2
            | none => 0
          let s1 : BotState :=
            { priceQueue := priceQueue
              takerFeePercentState := takerFeePercent
              currentEntryPrice := s.currentEntryPrice
              lastEMA := currentEMA }
          if priceQueue.length < CALCULATION_PERIOD then (s1, Action.none)
          else
            match zScore with
            | none => (s1, Action.none)
            | some z =>
              if positionSizeBase ≠ 0 then
                match s.currentEntryPrice, takerFeePercent with
                | some entry, some _ =>
                  let pnl := estimatedPnl positionSizeBase currentPrice entry
                  let initialPositionValueQuote := |positionSizeBase| * entry
                  let maxAllowedLossQuote := initialPositionValueQuote * MAX_LOSS_PERCENTAGE
                  if pnl < 0 ∧ maxAllowedLossQuote ≤ |pnl| then
                    (exitAttempt closeOk s1, Action.exitStopLoss)
                  else if 0 < initialPositionValueQuote ∧
                      TAKE_PROFIT_PERCENTAGE ≤ pnl / initialPositionValueQuote then
                    (exitAttempt closeOk s1, Action.exitTakeProfitPct)
                  else
                    if (if 0 < positionSizeBase then -Z_SCORE_EXIT_THRESHOLD ≤ z
                        else z ≤ Z_SCORE_EXIT_THRESHOLD) then
                      if (if 0 < positionSizeBase then
                            0 < pnl ∧ estimatedRoundTripFeeCostQuote +
                              initialPositionValueQuote * MINIMUM_PROFIT_PERCENTAGE < pnl
                          else if positionSizeBase < 0 then
                            pnl < 0 ∧ estimatedRoundTripFeeCostQuote +
                              initialPositionValueQuote * MINIMUM_PROFIT_PERCENTAGE < |pnl|
                          else False) then
                        (exitAttempt closeOk s1, Action.exitZScore)
                      else (s1, Action.none)
                    else (s1, Action.none)
                | _, _ => (s1, Action.none)
              else
                if maxAllowedCapital ≤ currentCapitalUsage then (s1, Action.none)
                else
                  match takerFeePercent with
                  | none => (s1, Action.none)
                  | some _ =>
                    if z < -Z_SCORE_ENTRY_THRESHOLD then
                      (entryAttempt placeOk currentPrice s1,
                        Action.enterLong
                          (actualTradeSizeBase acct.totalCollateral currentPrice minOrderSizeNumber))
                    else if Z_SCORE_ENTRY_THRESHOLD < z then
                      (entryAttempt placeOk currentPrice s1,
                        Action.enterShort
                          (actualTradeSizeBase acct.totalCollateral currentPrice minOrderSizeNumber))
                    else (s1, Action.none)

/-- resetMeanReversionState: clears the price queue, fee cache, entry
price and EMA state. -/
def resetMeanReversionState : BotState :=
  { priceQueue := []
    takerFeePercentState := none
    currentEntryPrice := none
    lastEMA := none }

/-- The scheduler's observable state in core.ts: the running flag, whether
a timer for the next tick is pending, whether a tick is in flight, plus
the strategy session state it resets on stop. -/
structure SchedState where
  isBotRunning : Bool
  timerPending : Bool
  tickInFlight : Bool
  strat : BotState

/-- The events that drive the scheduler: a start call, a stop call, an
in-flight tick completing (the end of the runLoop body), and the pending
timer firing (a fresh runLoop invocation). -/
inductive SchedEvent where
  | startLoop : SchedEvent
  | stopLoop : SchedEvent
  | tickComplete : SchedEvent
  | timerFire : SchedEvent
deriving DecidableEq

/-- startTradingLoop: a no-op when already running, otherwise sets the
running flag and invokes runLoop immediately, beginning a tick. -/
def startTradingLoop (st : SchedState) : SchedState :=
  if st.isBotRunning then st
  else { st with isBotRunning := true, tickInFlight := true }

/-- stopTradingLoop: a no-op when not running; otherwise clears the
running flag, cancels the pending timer and resets the strategy state. -/
def stopTradingLoop (st : SchedState) : SchedState :=
  if st.isBotRunning = false then st
  else
    { isBotRunning := false
      timerPending := false
      tickInFlight := st.tickInFlight
      strat := resetMeanReversionState }

/-- isLoopRunning from core.ts. -/
def isLoopRunning (st : SchedState) : Bool :=
  st.isBotRunning

/-- End of the runLoop body: the in-flight tick completes, and the next
run is scheduled only if the bot is still running. -/
def tickCompleteStep (st : SchedState) : SchedState :=
  if st.tickInFlight then
    { st with
      tickInFlight := false
      timerPending := if st.isBotRunning then true else st.timerPending }
  else st

/-- The pending timer fires: runLoop is invoked again; it begins a tick
only if the bot is still running, otherwise it returns immediately. -/
def timerFireStep (st : SchedState) : SchedState :=
  if st.timerPending then
    if st.isBotRunning then { st with timerPending := false, tickInFlight := true }
    else { st with timerPending := false }
  else st

/-- One scheduler transition per event. -/
def schedStep (st : SchedState) : SchedEvent → SchedState
  | SchedEvent.startLoop => startTradingLoop st
  | SchedEvent.stopLoop => stopTradingLoop st
  | SchedEvent.tickComplete => tickCompleteStep st
  | SchedEvent.timerFire => timerFireStep st


/-- The queue length stays bounded on a single observe step. -/
lemma updatedQueue_length_le (q : List ℝ) (p : ℝ)
    (h : q.length ≤ MAX_QUEUE_LENGTH) :
    (updatedQueue q p).length ≤ MAX_QUEUE_LENGTH := by
  simp only [updatedQueue]
  split
  · simp only [List.length_tail, List.length_append, List.length_singleton]
    omega
  · next h1 =>
    simp only [List.length_append, List.length_singleton]
    simp only [not_lt, List.length_append, List.length_singleton] at h1
    omega

/-- Folding observe steps from a bounded queue keeps the bound. -/
lemma foldl_updatedQueue_length (ps : List ℝ) :
    ∀ q : List ℝ, q.length ≤ MAX_QUEUE_LENGTH →
      (List.foldl updatedQueue q ps).length ≤ MAX_QUEUE_LENGTH := by
  induction ps with
  | nil => intro q h; simpa using h
  | cons p ps ih =>
    intro q h
    rw [List.foldl_cons]
    exact ih _ (updatedQueue_length_le q p h)

/-- C8: after any number of observe calls starting from the empty queue,
the price queue length never exceeds MAX_QUEUE_LENGTH (= 90); a single
observe preserves the bound; and appending past capacity evicts exactly
the oldest sample (FIFO). -/
theorem price_window_bounded :
    (∀ ps : List ℝ, (List.foldl updatedQueue [] ps).length ≤ MAX_QUEUE_LENGTH) ∧
    (∀ (q : List ℝ) (p : ℝ), q.length ≤ MAX_QUEUE_LENGTH →
      (updatedQueue q p).length ≤ MAX_QUEUE_LENGTH) ∧
    (∀ (q : List ℝ) (p : ℝ), q.length = MAX_QUEUE_LENGTH →
      updatedQueue q p = q.tail ++ [p]) := by
  refine ⟨fun ps => foldl_updatedQueue_length ps [] (by simp), updatedQueue_length_le, ?_⟩
  intro q p h
  simp only [updatedQueue]
  rw [if_pos (by simp [List.length_append, h])]
  cases q with
  | nil => simp [MAX_QUEUE_LENGTH] at h
  | cons a t => simp

/-- C8 witness: a queue at capacity evicts its head on the next observe. -/
theorem price_window_bounded_witness :
    updatedQueue (List.replicate 90 (5 : ℝ)) 7
      = (List.replicate 90 (5 : ℝ)).tail ++ [7] :=
  price_window_bounded.2.2 _ _ (by simp [MAX_QUEUE_LENGTH])

/-- C9: a tick whose account snapshot reports non-positive total collateral
returns immediately: no action, and the stored state (in particular the
price queue) is completely unchanged, so the price sample is never
observed. -/
theorem nonpositive_collateral_aborts (s : BotState) (acct : AccountState)
    (oraclePrice : Option ℝ) (positionSizeBase : ℝ) (minOrderSize feeFetch : Option ℝ)
    (closeOk placeOk : Bool) (h : acct.totalCollateral ≤ 0) :
    runMeanReversionLogic s (some acct) oraclePrice positionSizeBase minOrderSize
      feeFetch closeOk placeOk = (s, Action.none) := by
  simp [runMeanReversionLogic, h]

/-- C9 witness: a concrete tick with zero collateral aborts unchanged. -/
theorem nonpositive_collateral_aborts_witness :
    runMeanReversionLogic resetMeanReversionState (some ⟨0⟩) (some 5) 0 (some 1)
      none true true = (resetMeanReversionState, Action.none) :=
  nonpositive_collateral_aborts _ _ _ _ _ _ _ _ (le_refl 0)

/-- C10: calling stop when the loop is not running is a complete no-op:
the scheduler state, including the strategy session state, is returned
unchanged. -/
theorem stop_when_idle_noop (st : SchedState) (h : st.isBotRunning = false) :
    stopTradingLoop st = st := by
  simp [stopTradingLoop, h]

/-- C10 witness: stop on a concrete idle state with pending timer and
non-reset strategy state changes nothing. -/
theorem stop_when_idle_noop_witness :
    stopTradingLoop ⟨false, true, true, ⟨[3], some 1, some 2, some 3⟩⟩
      = ⟨false, true, true, ⟨[3], some 1, some 2, some 3⟩⟩ :=
  stop_when_idle_noop _ rfl

/-- C2 counterexample: for the short position sizeBase = -1 with
entryPrice 100 and currentPrice 90 (a profitable short), the tick computes
estimatedPnl = -10, which differs from the claimed
|sizeBase|*(entryPrice - currentPrice) = 10 and is not positive even
though currentPrice < entryPrice. -/
theorem short_pnl_sign_counterexample :
    estimatedPnl (-1) 90 100 = -10 ∧
    estimatedPnl (-1) 90 100 ≠ |(-1 : ℝ)| * (100 - 90) ∧
    ¬ 0 < estimatedPnl (-1) 90 100 := by
  norm_num [estimatedPnl]

/-- C2 amended: for a short position the tick computes
estimatedPnl = sizeBase * (entryPrice - currentPrice), which equals the
NEGATION of |sizeBase| * (entryPrice - currentPrice); it is therefore
positive exactly when currentPrice > entryPrice, i.e. the computed
estimate is negative when the short is in profit. -/
theorem short_pnl_sign_amended (positionSizeBase currentPrice entry : ℝ)
    (h : positionSizeBase < 0) :
    estimatedPnl positionSizeBase currentPrice entry
        = -(|positionSizeBase| * (entry - currentPrice)) ∧
    (0 < estimatedPnl positionSizeBase currentPrice entry ↔ entry < currentPrice) := by
  rw [estimatedPnl, if_neg (not_lt.mpr h.le), abs_of_neg h]
  constructor
  · ring
  · constructor
    · intro hp
      nlinarith
    · intro hc
      nlinarith

/-- C2 amended witness: at sizeBase = -1, current 90, entry 100, the
computed PnL is the negated magnitude and is not positive. -/
theorem short_pnl_sign_amended_witness :
    estimatedPnl (-1) 90 100 = -(|(-1 : ℝ)| * (100 - 90)) ∧
    (0 < estimatedPnl (-1) 90 100 ↔ (100 : ℝ) < 90) :=
  short_pnl_sign_amended (-1) 90 100 (by norm_num)

/-- C5: whenever the window holds at least period samples, calculateEMA
returns price * alpha + seed * (1 - alpha) with alpha = 2 / (period + 1),
where the seed is the previous EMA when one exists and otherwise the
simple average of the most recent period samples. -/
theorem ema_matches_spec (currentPrice : ℝ) (period : ℕ) (previousEMA : Option ℝ)
    (q : List ℝ) (h : period ≤ q.length) :
    calculateEMA currentPrice period previousEMA q =
      some (currentPrice * (2 / ((period : ℝ) + 1)) +
        (previousEMA.getD ((q.drop (q.length - period)).sum /
            ((q.drop (q.length - period)).length : ℝ))) *
          (1 - 2 / ((period : ℝ) + 1))) := by
  have hlen : (q.drop (q.length - period)).length = period := by
    rw [List.length_drop]
    omega
  rw [hlen]
  simp only [calculateEMA]
  rw [if_neg (not_lt.mpr h)]
  cases previousEMA with
  | some e => rfl
  | none => simp only [Option.getD_none]

/-- C5 witness: a concrete EMA step with an existing previous EMA on a
full window. -/
theorem ema_matches_spec_witness :
    calculateEMA 10 21 (some 5) (List.replicate 21 (1 : ℝ)) =
      some (10 * (2 / ((21 : ℕ) + 1 : ℝ)) +
        ((some (5 : ℝ)).getD (((List.replicate 21 (1 : ℝ)).drop
            ((List.replicate 21 (1 : ℝ)).length - 21)).sum /
          (((List.replicate 21 (1 : ℝ)).drop
            ((List.replicate 21 (1 : ℝ)).length - 21)).length : ℝ))) *
          (1 - 2 / ((21 : ℕ) + 1 : ℝ))) :=
  ema_matches_spec 10 21 (some 5) (List.replicate 21 (1 : ℝ)) (by simp)


/-- calculateEMA is null on a window shorter than the period. -/
lemma calculateEMA_none_of_short {p : ℝ} {prev : Option ℝ} {q : List ℝ}
    (h : q.length < CALCULATION_PERIOD) :
    calculateEMA p CALCULATION_PERIOD prev q = none := by
  simp [calculateEMA, h]

/-- A defined zScore forces the window to hold at least the period. -/
lemma zScore_some_not_short {l : Option ℝ} {q : List ℝ} {p z : ℝ}
    (h : (indicators l q p).2.2 = some z) :
    ¬ q.length < CALCULATION_PERIOD := by
  intro hlt
  simp [indicators, calculateEMA_none_of_short hlt] at h

/-- C3: on a window shorter than the period the EMA, StdDev and zScore are
all undefined and a tick issues no action; and whenever the computed
StdDev is exactly 0 the zScore is undefined and the tick likewise issues
no action, however full the window is. -/
theorem insufficient_data_no_action :
    (∀ (lastEMA : Option ℝ) (q : List ℝ) (p : ℝ), q.length < CALCULATION_PERIOD →
        indicators lastEMA q p = (none, none, none)) ∧
    (∀ (s : BotState) (acct : AccountState) (price positionSizeBase : ℝ)
        (minOrderSize feeFetch : Option ℝ) (closeOk placeOk : Bool),
        (updatedQueue s.priceQueue price).length < CALCULATION_PERIOD →
        (runMeanReversionLogic s (some acct) (some price) positionSizeBase
          minOrderSize feeFetch closeOk placeOk).2 = Action.none) ∧
    (∀ (lastEMA : Option ℝ) (q : List ℝ) (p : ℝ),
        (indicators lastEMA q p).2.1 = some 0 →
        (indicators lastEMA q p).2.2 = none) ∧
    (∀ (s : BotState) (acct : AccountState) (price positionSizeBase : ℝ)
        (minOrderSize feeFetch : Option ℝ) (closeOk placeOk : Bool),
        (indicators s.lastEMA (updatedQueue s.priceQueue price) price).2.2 = none →
        (runMeanReversionLogic s (some acct) (some price) positionSizeBase
          minOrderSize feeFetch closeOk placeOk).2 = Action.none) := by
  refine ⟨?_, ?_, ?_, ?_⟩
  · intro lastEMA q p h
    simp [indicators, calculateEMA_none_of_short h, calculateStdDev]
  · intro s acct price positionSizeBase minOrderSize feeFetch closeOk placeOk h
    simp only [runMeanReversionLogic]
    split
    · rfl
    · cases minOrderSize with
      | none => rfl
      | some m => rfl
  · intro lastEMA q p h
    cases hE : calculateEMA p CALCULATION_PERIOD lastEMA q with
    | none => simp [indicators, hE]
    | some m =>
      have h' : calculateStdDev q (some m) CALCULATION_PERIOD = some 0 := by
        have := h
        simp only [indicators] at this
        rwa [hE] at this
      simp [indicators, hE, h']
  · intro s acct price positionSizeBase minOrderSize feeFetch closeOk placeOk hz
    simp only [runMeanReversionLogic]
    split
    · rfl
    · cases minOrderSize with
      | none => rfl
      | some m =>
        dsimp only
        by_cases hlen : (updatedQueue s.priceQueue price).length < CALCULATION_PERIOD
        · rw [if_pos hlen]
        · rw [if_neg hlen, hz]


/-- A 20-sample queue used for concrete scenarios: pushing one more 94
gives a 21-sample window with EMA 94 and variance exactly 1. -/
def q94 : List ℝ :=
  [94, 94, 94, 94, 94, 94, 94, 94, 94, 94, 94, 94, 94, 94, 94, 94, 94, 95, 96, 98]

/-- Concrete stored state for the stop-loss scenario: open long recorded at
entry 100, fee cached, previous EMA 94. -/
def s94 : BotState := ⟨q94, some 10, some 100, some 94⟩

lemma q94_updated : updatedQueue q94 94 = q94 ++ [94] := by
  simp only [updatedQueue]
  rw [if_neg (by norm_num [MAX_QUEUE_LENGTH, q94])]

lemma q94_ema : calculateEMA 94 CALCULATION_PERIOD (some 94) (q94 ++ [94]) = some 94 := by
  rw [calculateEMA]
  rw [if_neg (by norm_num [CALCULATION_PERIOD, q94])]
  norm_num [CALCULATION_PERIOD]

lemma q94_sd : calculateStdDev (q94 ++ [94]) (some 94) CALCULATION_PERIOD = some 1 := by
  rw [calculateStdDev.eq_def]
  dsimp only
  rw [if_neg (by norm_num [CALCULATION_PERIOD, q94])]
  have hv : ((List.map (fun v => (v - (94:ℝ)) ^ 2)
      (List.drop ((q94 ++ [94]).length - CALCULATION_PERIOD) (q94 ++ [94]))).sum /
      (CALCULATION_PERIOD : ℝ)) = 1 := by
    norm_num [CALCULATION_PERIOD, q94]
  rw [hv, Real.sqrt_one]

lemma q94_ind : indicators (some 94) (q94 ++ [94]) 94 = (some 94, some 1, some 0) := by
  rw [indicators]
  rw [q94_ema, q94_sd]
  dsimp only
  rw [if_pos (by norm_num : (0:ℝ) < 1)]
  norm_num

/-- Full evaluation of the stop-loss scenario tick: long of size 1, entry
100, price 94 (a 6 percent loss), any execution outcomes. -/
lemma tickSL_eval (closeOk placeOk : Bool) :
    runMeanReversionLogic s94 (some ⟨1000⟩) (some 94) 1 (some (1/100)) none closeOk placeOk
      = (exitAttempt closeOk ⟨q94 ++ [94], some 10, some 100, some 94⟩,
          Action.exitStopLoss) := by
  have hg : ¬ q94.length + 1 < CALCULATION_PERIOD := by norm_num [q94, CALCULATION_PERIOD]
  norm_num [runMeanReversionLogic, s94, q94_updated, q94_ind, hg, feeAfterFetch,
    estimatedPnl, MAX_LOSS_PERCENTAGE]

/-- A 20-sample queue that, after pushing 15, has EMA 11, variance 1 and
zScore 4, triggering a short entry. -/
def qE : List ℝ :=
  [11, 11, 11, 11, 11, 11, 11, 11, 11, 11, 11, 11, 11, 11, 11, 11, 11, 11, 12, 13]

/-- Concrete stored state for the short-entry scenario: flat, fee cached,
previous EMA 53/5. -/
def sE : BotState := ⟨qE, some 10, none, some (53/5)⟩

lemma qE_updated : updatedQueue qE 15 = qE ++ [15] := by
  simp only [updatedQueue]
  rw [if_neg (by norm_num [MAX_QUEUE_LENGTH, qE])]

lemma qE_ema : calculateEMA 15 CALCULATION_PERIOD (some (53/5)) (qE ++ [15]) = some 11 := by
  rw [calculateEMA]
  rw [if_neg (by norm_num [CALCULATION_PERIOD, qE])]
  norm_num [CALCULATION_PERIOD]

lemma qE_sd : calculateStdDev (qE ++ [15]) (some 11) CALCULATION_PERIOD = some 1 := by
  rw [calculateStdDev.eq_def]
  dsimp only
  rw [if_neg (by norm_num [CALCULATION_PERIOD, qE])]
  have hv : ((List.map (fun v => (v - (11:ℝ)) ^ 2)
      (List.drop ((qE ++ [15]).length - CALCULATION_PERIOD) (qE ++ [15]))).sum /
      (CALCULATION_PERIOD : ℝ)) = 1 := by
    norm_num [CALCULATION_PERIOD, qE]
  rw [hv, Real.sqrt_one]

lemma qE_ind : indicators (some (53/5)) (qE ++ [15]) 15 = (some 11, some 1, some 4) := by
  rw [indicators]
  rw [qE_ema, qE_sd]
  dsimp only
  rw [if_pos (by norm_num : (0:ℝ) < 1)]
  norm_num

lemma sizeE : actualTradeSizeBase 1000 15 (1/100) = 1666/100 := by
  rw [actualTradeSizeBase, roundedDesiredTradeSizeBase, desiredTradeSizeBase,
    desiredTradeValueQuote, buyingPower]
  have h1 : (1000 * LEVERAGE_FACTOR * PORTFOLIO_RISK_PER_TRADE / 15 * 100 : ℝ) = 5000 / 3 := by
    norm_num [LEVERAGE_FACTOR, PORTFOLIO_RISK_PER_TRADE]
  rw [h1]
  have h2 : (⌊(5000 : ℝ) / 3⌋ : ℤ) = 1666 := by norm_num [Int.floor_eq_iff]
  rw [h2]
  norm_num

/-- Full evaluation of the short-entry scenario tick: flat position, price
15, zScore 4 above the entry threshold, any execution outcomes. -/
lemma tickE_eval (closeOk placeOk : Bool) :
    runMeanReversionLogic sE (some ⟨1000⟩) (some 15) 0 (some (1/100)) none closeOk placeOk
      = (entryAttempt placeOk 15 ⟨qE ++ [15], some 10, none, some 11⟩,
          Action.enterShort (1666/100)) := by
  have hg : ¬ qE.length + 1 < CALCULATION_PERIOD := by norm_num [qE, CALCULATION_PERIOD]
  norm_num [runMeanReversionLogic, sE, qE_updated, qE_ind, hg, feeAfterFetch, sizeE,
    MAX_PORTFOLIO_ALLOCATION, Z_SCORE_ENTRY_THRESHOLD]

/-- C1: on any tick with positive collateral, a defined zScore, an open
position (long or short) with known entry price and known taker fee,
whenever the computed estimated PnL is negative with magnitude at least
MAX_LOSS_PERCENTAGE of the initial position value, the tick's action is
Exit via the stop-loss branch (not a take-profit branch). -/
theorem stop_loss_fires_first (s : BotState)
    (totalCollateral currentPrice positionSizeBase minSz : ℝ) (feeFetch : Option ℝ)
    (closeOk placeOk : Bool) (z f entry : ℝ)
    (htc : 0 < totalCollateral)
    (hz : (indicators s.lastEMA (updatedQueue s.priceQueue currentPrice) currentPrice).2.2
      = some z)
    (hpos : positionSizeBase ≠ 0)
    (hentry : s.currentEntryPrice = some entry)
    (hfee : s.takerFeePercentState = some f)
    (hloss : estimatedPnl positionSizeBase currentPrice entry < 0)
    (hmag : |positionSizeBase| * entry * MAX_LOSS_PERCENTAGE
      ≤ |estimatedPnl positionSizeBase currentPrice entry|) :
    (runMeanReversionLogic s (some ⟨totalCollateral⟩) (some currentPrice) positionSizeBase
      (some minSz) feeFetch closeOk placeOk).2 = Action.exitStopLoss := by
  have hlen := zScore_some_not_short hz
  simp [runMeanReversionLogic, hz, hfee, hentry, feeAfterFetch, hpos, hloss, hmag, hlen,
    htc.not_le]

/-- C1 witness: the concrete stop-loss scenario (long 1 at entry 100,
price 94) satisfies every hypothesis and exits via stop-loss. -/
theorem stop_loss_fires_first_witness :
    (0:ℝ) < 1000 ∧
    (runMeanReversionLogic s94 (some ⟨1000⟩) (some 94) 1 (some (1/100)) none true true).2
      = Action.exitStopLoss := by
  refine ⟨by norm_num, ?_⟩
  refine stop_loss_fires_first s94 1000 94 1 (1/100) none true true 0 10 100
    (by norm_num) ?_ (by norm_num) rfl rfl ?_ ?_
  · show (indicators (some 94) (updatedQueue q94 94) 94).2.2 = some 0
    rw [q94_updated, q94_ind]
  · norm_num [estimatedPnl]
  · norm_num [estimatedPnl, MAX_LOSS_PERCENTAGE]


/-- C6: entry/exit attempts update the recorded entry price exactly as the
claim states: a successful entry records the current price and a failed
one leaves it cleared; a successful exit clears it and a failed exit
leaves the stored state's entry price unchanged. -/
theorem entry_exit_state_update (s : BotState) (acct : AccountState)
    (currentPrice positionSizeBase minSz : ℝ) (feeFetch : Option ℝ) (closeOk placeOk : Bool)
    (st' : BotState) (act : Action)
    (hrun : runMeanReversionLogic s (some acct) (some currentPrice) positionSizeBase
      (some minSz) feeFetch closeOk placeOk = (st', act)) :
    ((∃ sz, act = Action.enterLong sz ∨ act = Action.enterShort sz) →
        st'.currentEntryPrice = if placeOk then some currentPrice else none) ∧
    ((act = Action.exitStopLoss ∨ act = Action.exitTakeProfitPct ∨ act = Action.exitZScore) →
        (closeOk = true → st'.currentEntryPrice = none) ∧
        (closeOk = false → st'.currentEntryPrice = s.currentEntryPrice)) := by
  simp only [runMeanReversionLogic] at hrun
  repeat' split at hrun
  all_goals (
    rw [Prod.mk.injEq] at hrun
    obtain ⟨h1, h2⟩ := hrun
    subst h1
    subst h2
    constructor
    · rintro ⟨sz, h | h⟩ <;>
        first
          | exact Action.noConfusion h
          | (cases placeOk <;> rfl)
    · rintro (h | h | h) <;>
        first
          | exact Action.noConfusion h
          | (cases closeOk
             · exact ⟨fun hc => by simp at hc, fun hc => rfl⟩
             · exact ⟨fun hc => rfl, fun hc => by simp at hc⟩))

/-- C6 witness: on the concrete entry and stop-loss scenario ticks, a
successful entry records entry price 15, a failed one leaves it cleared,
a successful exit clears it, and a failed exit preserves the stored
entry price 100. -/
theorem entry_exit_state_update_witness :
    (entryAttempt true 15 ⟨qE ++ [15], some 10, none, some 11⟩).currentEntryPrice = some 15 ∧
    (entryAttempt false 15 ⟨qE ++ [15], some 10, none, some 11⟩).currentEntryPrice = none ∧
    (exitAttempt true ⟨q94 ++ [94], some 10, some 100, some 94⟩).currentEntryPrice = none ∧
    (exitAttempt false ⟨q94 ++ [94], some 10, some 100, some 94⟩).currentEntryPrice
      = s94.currentEntryPrice := by
  refine ⟨?_, ?_, ?_, ?_⟩
  · have h := (entry_exit_state_update sE ⟨1000⟩ 15 0 (1/100) none true true _ _
      (tickE_eval true true)).1 ⟨1666/100, Or.inr rfl⟩
    simpa using h
  · have h := (entry_exit_state_update sE ⟨1000⟩ 15 0 (1/100) none false false _ _
      (tickE_eval false false)).1 ⟨1666/100, Or.inr rfl⟩
    simpa using h
  · exact ((entry_exit_state_update s94 ⟨1000⟩ 94 1 (1/100) none true true _ _
      (tickSL_eval true true)).2 (Or.inl rfl)).1 rfl
  · exact ((entry_exit_state_update s94 ⟨1000⟩ 94 1 (1/100) none false true _ _
      (tickSL_eval false true)).2 (Or.inl rfl)).2 rfl

/-- C4: the entry order size equals the floored desired size
max(floor2dp(totalCollateral * leverage * riskPerTrade / price), minStep);
flooring never rounds up past the unrounded desired size; the result is
at least minStep; and any entry action a tick places carries exactly this
size (hence at least minStep). -/
theorem trade_size_formula (totalCollateral currentPrice minSz : ℝ) :
    actualTradeSizeBase totalCollateral currentPrice minSz
        = max ((⌊totalCollateral * LEVERAGE_FACTOR * PORTFOLIO_RISK_PER_TRADE
            / currentPrice * 100⌋ : ℝ) / 100) minSz ∧
    roundedDesiredTradeSizeBase totalCollateral currentPrice
        ≤ desiredTradeSizeBase totalCollateral currentPrice ∧
    minSz ≤ actualTradeSizeBase totalCollateral currentPrice minSz ∧
    (∀ (s : BotState) (acct : AccountState) (positionSizeBase : ℝ) (feeFetch : Option ℝ)
        (closeOk placeOk : Bool) (st' : BotState) (act : Action) (sz : ℝ),
        acct.totalCollateral = totalCollateral →
        runMeanReversionLogic s (some acct) (some currentPrice) positionSizeBase (some minSz)
          feeFetch closeOk placeOk = (st', act) →
        (act = Action.enterLong sz ∨ act = Action.enterShort sz) →
        sz = actualTradeSizeBase totalCollateral currentPrice minSz ∧ minSz ≤ sz) := by
  refine ⟨?_, ?_, ?_, ?_⟩
  · rw [actualTradeSizeBase, roundedDesiredTradeSizeBase, desiredTradeSizeBase,
      desiredTradeValueQuote, buyingPower]
  · rw [roundedDesiredTradeSizeBase, div_le_iff₀ (by norm_num : (0:ℝ) < 100)]
    exact Int.floor_le _
  · rw [actualTradeSizeBase]
    exact le_max_right _ _
  · intro s acct positionSizeBase feeFetch closeOk placeOk st' act sz htc hrun hact
    subst htc
    simp only [runMeanReversionLogic] at hrun
    repeat' split at hrun
    all_goals (
      rw [Prod.mk.injEq] at hrun
      obtain ⟨h1, h2⟩ := hrun
      subst h1
      subst h2
      rcases hact with h | h <;>
        first
          | exact Action.noConfusion h
          | (injection h with h3
             subst h3
             exact ⟨rfl, by rw [actualTradeSizeBase]; exact le_max_right _ _⟩))

/-- C4 witness: the concrete short-entry tick places an order of size
1666/100, which is the computed actual trade size and at least the
minimum step 1/100. -/
theorem trade_size_formula_witness :
    (1666/100 : ℝ) = actualTradeSizeBase 1000 15 (1/100) ∧ (1/100 : ℝ) ≤ 1666/100 :=
  (trade_size_formula 1000 15 (1/100)).2.2.2 sE ⟨1000⟩ 0 none true true _ _ (1666/100)
    rfl (tickE_eval true true) (Or.inr rfl)

/-- A single non-start scheduler step preserves the stopped configuration
and never begins a new tick. -/
lemma sched_step_stopped (st : SchedState) (e : SchedEvent) (he : e ≠ SchedEvent.startLoop)
    (h1 : st.isBotRunning = false) (h2 : st.timerPending = false) :
    (schedStep st e).isBotRunning = false ∧ (schedStep st e).timerPending = false ∧
    ((schedStep st e).tickInFlight = true → st.tickInFlight = true) := by
  cases e with
  | startLoop => exact absurd rfl he
  | stopLoop => simp [schedStep, stopTradingLoop, h1, h2]
  | tickComplete =>
    by_cases hf : st.tickInFlight
    · simp [schedStep, tickCompleteStep, hf, h1, h2]
    · simp [schedStep, tickCompleteStep, hf, h1, h2]
  | timerFire => simp [schedStep, timerFireStep, h1, h2]

/-- Any start-free event sequence from a stopped configuration keeps the
loop stopped, keeps no timer pending, and never begins a new tick. -/
lemma sched_stopped_inv (evs : List SchedEvent) :
    ∀ st : SchedState, st.isBotRunning = false → st.timerPending = false →
      SchedEvent.startLoop ∉ evs →
      ((List.foldl schedStep st evs).isBotRunning = false ∧
        (List.foldl schedStep st evs).timerPending = false ∧
        ((List.foldl schedStep st evs).tickInFlight = true → st.tickInFlight = true)) := by
  induction evs with
  | nil =>
    intro st h1 h2 _
    exact ⟨h1, h2, fun h => h⟩
  | cons e evs ih =>
    intro st h1 h2 hmem
    have he : e ≠ SchedEvent.startLoop := by
      intro hcontra
      exact hmem (by rw [hcontra]; exact List.mem_cons_self _ _)
    have hmem' : SchedEvent.startLoop ∉ evs := fun hin => hmem (List.mem_cons_of_mem _ hin)
    obtain ⟨a, b, c⟩ := sched_step_stopped st e he h1 h2
    rw [List.foldl_cons]
    obtain ⟨d, f, g⟩ := ih (schedStep st e) a b hmem'
    exact ⟨d, f, fun h => c (g h)⟩

/-- C7: stopping a running loop clears the running flag (isRunning is
false), cancels the pending timer, resets the session state, and along
any subsequent start-free event sequence the loop stays stopped, no timer
is ever pending again, and any tick in flight afterwards was already in
flight at the stop call (the in-flight tick is not interrupted but never
re-arms the loop). -/
theorem stop_prevents_rescheduling (st : SchedState) (h : st.isBotRunning = true) :
    isLoopRunning (stopTradingLoop st) = false ∧
    (stopTradingLoop st).timerPending = false ∧
    (stopTradingLoop st).strat = resetMeanReversionState ∧
    (stopTradingLoop st).tickInFlight = st.tickInFlight ∧
    (∀ evs : List SchedEvent, SchedEvent.startLoop ∉ evs →
      isLoopRunning (List.foldl schedStep (stopTradingLoop st) evs) = false ∧
      (List.foldl schedStep (stopTradingLoop st) evs).timerPending = false ∧
      ((List.foldl schedStep (stopTradingLoop st) evs).tickInFlight = true →
        st.tickInFlight = true)) := by
  have h1 : (stopTradingLoop st).isBotRunning = false := by simp [stopTradingLoop, h]
  have h2 : (stopTradingLoop st).timerPending = false := by simp [stopTradingLoop, h]
  have h3 : (stopTradingLoop st).strat = resetMeanReversionState := by
    simp [stopTradingLoop, h]
  have h4 : (stopTradingLoop st).tickInFlight = st.tickInFlight := by
    simp [stopTradingLoop, h]
  refine ⟨by simpa [isLoopRunning] using h1, h2, h3, h4, fun evs hmem => ?_⟩
  obtain ⟨a, b, c⟩ := sched_stopped_inv evs (stopTradingLoop st) h1 h2 hmem
  exact ⟨by simpa [isLoopRunning] using a, b, fun hf => h4 ▸ c hf⟩

/-- C7 witness: stopping a concrete running scheduler (timer pending, tick
in flight) resets everything, and after a tick completion, a timer fire
and another stop call the loop is still not running with no timer
pending. -/
theorem stop_prevents_rescheduling_witness :
    isLoopRunning (stopTradingLoop ⟨true, true, true, ⟨[3], some 1, some 2, some 3⟩⟩)
      = false ∧
    (stopTradingLoop ⟨true, true, true, ⟨[3], some 1, some 2, some 3⟩⟩).timerPending
      = false ∧
    (stopTradingLoop ⟨true, true, true, ⟨[3], some 1, some 2, some 3⟩⟩).strat
      = resetMeanReversionState ∧
    isLoopRunning (List.foldl schedStep
      (stopTradingLoop ⟨true, true, true, ⟨[3], some 1, some 2, some 3⟩⟩)
      [SchedEvent.tickComplete, SchedEvent.timerFire, SchedEvent.stopLoop]) = false ∧
    (List.foldl schedStep
      (stopTradingLoop ⟨true, true, true, ⟨[3], some 1, some 2, some 3⟩⟩)
      [SchedEvent.tickComplete, SchedEvent.timerFire, SchedEvent.stopLoop]).timerPending
      = false := by
  obtain ⟨a, b, c, d, e⟩ :=
    stop_prevents_rescheduling ⟨true, true, true, ⟨[3], some 1, some 2, some 3⟩⟩ rfl
  obtain ⟨f, g, i⟩ := e [SchedEvent.tickComplete, SchedEvent.timerFire, SchedEvent.stopLoop]
    (by decide)
  exact ⟨a, b, c, f, g⟩


lemma q7_ema : calculateEMA 7 CALCULATION_PERIOD (some 7) (List.replicate 21 (7:ℝ)) = some 7 := by
  rw [calculateEMA]
  rw [if_neg (by simp [CALCULATION_PERIOD])]
  norm_num [CALCULATION_PERIOD]

lemma q7_sd : calculateStdDev (List.replicate 21 (7:ℝ)) (some 7) CALCULATION_PERIOD = some 0 := by
  rw [calculateStdDev.eq_def]
  norm_num [CALCULATION_PERIOD, Real.sqrt_eq_zero', List.map_replicate, List.sum_replicate]

lemma q7_sd_any : (indicators (some 7) (List.replicate 21 (7:ℝ)) 7).2.1 = some 0 := by
  simp only [indicators]
  rw [q7_ema, q7_sd]

lemma q7_replicate : updatedQueue (List.replicate 20 (7:ℝ)) 7 = List.replicate 21 (7:ℝ) := by
  simp only [updatedQueue]
  rw [if_neg (by simp [MAX_QUEUE_LENGTH])]
  exact (List.replicate_succ' 20 (7:ℝ)).symm

/-- C3 witness: with an empty window the indicators are all undefined and
a concrete fresh tick takes no action; with a full window of 21 identical
prices the dispersion is exactly 0, the zScore is undefined and the
concrete tick again takes no action. -/
theorem insufficient_data_no_action_witness :
    indicators none [] 1 = (none, none, none) ∧
    (runMeanReversionLogic resetMeanReversionState (some ⟨100⟩) (some 1) 0 (some 1)
      none true true).2 = Action.none ∧
    (indicators (some 7) (List.replicate 21 (7 : ℝ)) 7).2.2 = none ∧
    (runMeanReversionLogic ⟨List.replicate 20 (7 : ℝ), none, none, some 7⟩ (some ⟨100⟩)
      (some 7) 0 (some 1) none true true).2 = Action.none := by
  have hz : (indicators (some 7) (List.replicate 21 (7 : ℝ)) 7).2.2 = none :=
    insufficient_data_no_action.2.2.1 (some 7) (List.replicate 21 (7 : ℝ)) 7 q7_sd_any
  refine ⟨?_, ?_, hz, ?_⟩
  · exact insufficient_data_no_action.1 none [] 1 (by simp [CALCULATION_PERIOD])
  · refine insufficient_data_no_action.2.1 resetMeanReversionState ⟨100⟩ 1 0 (some 1)
      none true true ?_
    show (updatedQueue [] 1).length < CALCULATION_PERIOD
    norm_num [updatedQueue, MAX_QUEUE_LENGTH, CALCULATION_PERIOD]
  · refine insufficient_data_no_action.2.2.2 ⟨List.replicate 20 (7 : ℝ), none, none, some 7⟩
      ⟨100⟩ 7 0 (some 1) none true true ?_
    show (indicators (some 7) (updatedQueue (List.replicate 20 (7:ℝ)) 7) 7).2.2 = none
    rw [q7_replicate]
    exact hz

end

end TradingBot
